import Mathlib

/-!
Verification development for the SmartThings Find integration
(custom_components/smartthings_find).  The Python source is shallowly
embedded: JSON-like Python values become the inductive type `J`,
Python exceptions become the `Except PyErr` monad, `datetime` values
produced by `parse_stf_date` become their 14-digit numeric encoding
(lexicographic order of valid zero-padded date strings agrees with
datetime order), and network calls are abstracted by passing the
received response as data.
-/

set_option allowUnsafeReducibility true in
attribute [semireducible] Rat.mul Rat.add Rat.sub Rat.inv

namespace STF

/-- Python exceptions that the embedded code can raise.  `valueError`
corresponds to ValueError (bad float strings, bad strptime input),
`typeError` to TypeError (e.g. float(None)), `keyError` to KeyError
(missing dict key on subscript access). -/
inductive PyErr where
  | typeError
  | valueError
  | keyError
deriving DecidableEq, Repr

deriving instance DecidableEq for Except

/-- JSON-like Python values: None, bool, number (idealised as a rational),
string, list and dict (association list keyed by strings). -/
inductive J where
  | null : J
  | bool (b : Bool) : J
  | num (q : ℚ) : J
  | str (s : String) : J
  | arr (elems : List J) : J
  | obj (fields : List (String × J)) : J

mutual

/-- Decidable equality for `J` values (Python ==). -/
def J.beq : J → J → Bool
  | .null, .null => true
  | .bool a, .bool b => a == b
  | .num a, .num b => a == b
  | .str a, .str b => a == b
  | .arr a, .arr b => J.beqList a b
  | .obj a, .obj b => J.beqFields a b
  | _, _ => false

/-- Elementwise equality of `J` lists. -/
def J.beqList : List J → List J → Bool
  | [], [] => true
  | a :: as, b :: bs => J.beq a b && J.beqList as bs
  | _, _ => false

/-- Elementwise equality of `J` field lists. -/
def J.beqFields : List (String × J) → List (String × J) → Bool
  | [], [] => true
  | (ka, va) :: as, (kb, vb) :: bs => ka == kb && J.beq va vb && J.beqFields as bs
  | _, _ => false

end

instance : BEq J := ⟨J.beq⟩

mutual

theorem J.beq_refl : ∀ a : J, J.beq a a = true
  | .null => rfl
  | .bool b => by simp [J.beq]
  | .num q => by simp [J.beq]
  | .str s => by simp [J.beq]
  | .arr l => by simpa [J.beq] using J.beqList_refl l
  | .obj l => by simpa [J.beq] using J.beqFields_refl l

theorem J.beqList_refl : ∀ l : List J, J.beqList l l = true
  | [] => rfl
  | a :: as => by simp [J.beqList, J.beq_refl a, J.beqList_refl as]

theorem J.beqFields_refl : ∀ l : List (String × J), J.beqFields l l = true
  | [] => rfl
  | (k, v) :: as => by simp [J.beqFields, J.beq_refl v, J.beqFields_refl as]

end

mutual

theorem J.eq_of_beq : ∀ {a b : J}, J.beq a b = true → a = b
  | .null, .null, _ => rfl
  | .bool a, .bool b, h => by simpa [J.beq] using h
  | .num a, .num b, h => by simpa [J.beq] using h
  | .str a, .str b, h => by simpa [J.beq] using h
  | .arr a, .arr b, h => by
      simp only [J.beq] at h
      exact congrArg J.arr (J.eqList_of_beq h)
  | .obj a, .obj b, h => by
      simp only [J.beq] at h
      exact congrArg J.obj (J.eqFields_of_beq h)
  | .null, .bool _, h => by simp [J.beq] at h
  | .null, .num _, h => by simp [J.beq] at h
  | .null, .str _, h => by simp [J.beq] at h
  | .null, .arr _, h => by simp [J.beq] at h
  | .null, .obj _, h => by simp [J.beq] at h
  | .bool _, .null, h => by simp [J.beq] at h
  | .bool _, .num _, h => by simp [J.beq] at h
  | .bool _, .str _, h => by simp [J.beq] at h
  | .bool _, .arr _, h => by simp [J.beq] at h
  | .bool _, .obj _, h => by simp [J.beq] at h
  | .num _, .null, h => by simp [J.beq] at h
  | .num _, .bool _, h => by simp [J.beq] at h
  | .num _, .str _, h => by simp [J.beq] at h
  | .num _, .arr _, h => by simp [J.beq] at h
  | .num _, .obj _, h => by simp [J.beq] at h
  | .str _, .null, h => by simp [J.beq] at h
  | .str _, .bool _, h => by simp [J.beq] at h
  | .str _, .num _, h => by simp [J.beq] at h
  | .str _, .arr _, h => by simp [J.beq] at h
  | .str _, .obj _, h => by simp [J.beq] at h
  | .arr _, .null, h => by simp [J.beq] at h
  | .arr _, .bool _, h => by simp [J.beq] at h
  | .arr _, .num _, h => by simp [J.beq] at h
  | .arr _, .str _, h => by simp [J.beq] at h
  | .arr _, .obj _, h => by simp [J.beq] at h
  | .obj _, .null, h => by simp [J.beq] at h
  | .obj _, .bool _, h => by simp [J.beq] at h
  | .obj _, .num _, h => by simp [J.beq] at h
  | .obj _, .str _, h => by simp [J.beq] at h
  | .obj _, .arr _, h => by simp [J.beq] at h

theorem J.eqList_of_beq : ∀ {a b : List J}, J.beqList a b = true → a = b
  | [], [], _ => rfl
  | x :: xs, y :: ys, h => by
      simp only [J.beqList, Bool.and_eq_true] at h
      exact congrArg₂ List.cons (J.eq_of_beq h.1) (J.eqList_of_beq h.2)
  | [], _ :: _, h => by simp [J.beqList] at h
  | _ :: _, [], h => by simp [J.beqList] at h

theorem J.eqFields_of_beq : ∀ {a b : List (String × J)}, J.beqFields a b = true → a = b
  | [], [], _ => rfl
  | (kx, vx) :: xs, (ky, vy) :: ys, h => by
      simp only [J.beqFields, Bool.and_eq_true, beq_iff_eq] at h
      obtain ⟨⟨hk, hv⟩, ht⟩ := h
      rw [hk, J.eq_of_beq hv, J.eqFields_of_beq ht]
  | [], _ :: _, h => by simp [J.beqFields] at h
  | _ :: _, [], h => by simp [J.beqFields] at h

end

instance : DecidableEq J := fun a b =>
  if h : J.beq a b = true then .isTrue (J.eq_of_beq h)
  else .isFalse (fun he => h (he ▸ J.beq_refl a))

/-- Association-list lookup inside a `J.obj` field list (Python dict access). -/
def J.assoc : List (String × J) → String → Option J
  | [], _ => none
  | (k, v) :: rest, key => if k = key then some v else J.assoc rest key

/-- Python `d[key]` on a dict: KeyError when missing; TypeError when
subscripting a non-dict value (the embedded code only subscripts dicts). -/
def J.item : J → String → Except PyErr J
  | .obj fs, key =>
      match J.assoc fs key with
      | some v => .ok v
      | none => .error .keyError
  | _, _ => .error .typeError

/-- Python `key in d` membership test: key membership for dicts, substring
test for strings, element equality for lists, TypeError otherwise. -/
def J.hasKey : J → String → Except PyErr Bool
  | .obj fs, key => .ok (J.assoc fs key).isSome
  | .str s, key => .ok (decide (List.IsInfix key.toList s.toList))
  | .arr xs, key => .ok (xs.contains (J.str key))
  | _, _ => .error .typeError

/-- Python `d.get(key)` on a dict, returning None when the key is missing;
calling `.get` on a non-dict raises (AttributeError, folded into TypeError). -/
def J.getD : J → String → Except PyErr J
  | .obj fs, key =>
      match J.assoc fs key with
      | some v => .ok v
      | none => .ok .null
  | _, _ => .error .typeError

/-- Python truthiness of a value (used for `if used_op:` and
`if loc[\x27encrypted\x27]:`). -/
def truthy : J → Bool
  | .null => false
  | .bool b => b
  | .num q => q ≠ 0
  | .str s => s ≠ ""
  | .arr xs => xs ≠ []
  | .obj fs => fs ≠ []

/-- Python `len(...)`: length for lists and strings, field count for dicts,
TypeError otherwise. -/
def pyLen : J → Except PyErr Nat
  | .arr xs => .ok xs.length
  | .str s => .ok s.length
  | .obj fs => .ok fs.length
  | _ => .error .typeError

/-- Numeric value of a list of decimal digit characters. -/
def natOfDigits (cs : List Char) : Nat :=
  cs.foldl (fun acc c => acc * 10 + (c.toNat - 48)) 0

/-- Decimal string parsing as done by Python `float(str)` restricted to
plain decimal literals: optional sign, digits with at most one decimal
point, at least one digit overall (exponents, inf/nan and surrounding
whitespace are not exercised by this code's API payloads). -/
def strToRat (s : String) : Option ℚ :=
  let cs := s.toList
  let (sgn, body) : ℚ × List Char :=
    match cs with
    | '-' :: r => (-1, r)
    | '+' :: r => (1, r)
    | r => (1, r)
  match body.splitOn '.' with
  | [ip] =>
      if ip ≠ [] ∧ ip.all Char.isDigit then some (sgn * natOfDigits ip) else none
  | [ip, fp] =>
      if (ip ≠ [] ∨ fp ≠ []) ∧ ip.all Char.isDigit ∧ fp.all Char.isDigit then
        some (sgn * (natOfDigits ip + (natOfDigits fp : ℚ) / (10 : ℚ) ^ fp.length))
      else none
  | _ => none

/-- Python `float(x)` conversion: numbers pass through, bools become 0/1,
parseable strings are parsed, unparseable strings raise ValueError, and
None (and containers) raise TypeError. -/
def pyFloat : J → Except PyErr ℚ
  | .num q => .ok q
  | .bool b => .ok (if b then 1 else 0)
  | .str s =>
      match strToRat s with
      | some q => .ok q
      | none => .error .valueError
  | _ => .error .typeError

/-- Integer square root by bounded upward search (`isqrtAux n fuel acc`
raises `acc` while the next square still fits below `n`); with fuel `n`
and start 0 this computes the floor of the square root. -/
def isqrtAux (n : Nat) : Nat → Nat → Nat
  | 0, acc => acc
  | fuel + 1, acc =>
      if (acc + 1) * (acc + 1) ≤ n then isqrtAux n fuel (acc + 1) else acc

/-- Floor of the square root of a natural number. -/
def isqrt (n : Nat) : Nat := isqrtAux n n 0

/-- Exact model of `round(x ** 0.5, 1)` for a nonnegative rational `x`:
the real square root of `x`, rounded to one decimal with ties to even
(Python round-half-even), computed exactly over the rationals.  Binary
floating-point representation error is idealised away. -/
def sqrtRound1 (x : ℚ) : ℚ :=
  let s : ℚ := 100 * x
  let m : ℕ := isqrt s.floor.toNat
  let fourS : ℚ := 4 * s
  let tieSq : ℚ := ((2 * m + 1 : ℕ) ^ 2 : ℕ)
  let r : ℕ :=
    if fourS > tieSq then m + 1
    else if fourS < tieSq then m
    else if m % 2 = 0 then m else m + 1
  (r : ℚ) / 10

/-- Embedding of `calc_gps_accuracy(hu, vu)` (utils.py lines 486-502):
computes `round((float(hu)**2 + float(vu)**2) ** 0.5, 1)` but catches
only ValueError (returning None, modelled `Option ℚ` with `none`);
a TypeError, as raised by `float(None)`, escapes. -/
def calc_gps_accuracy (hu vu : J) : Except PyErr (Option ℚ) :=
  match (do
    let h ← pyFloat hu
    let v ← pyFloat vu
    pure (sqrtRound1 (h ^ 2 + v ^ 2)) : Except PyErr ℚ) with
  | .ok r => .ok (some r)
  | .error .valueError => .ok none
  | .error e => .error e

/-- Whether a year is a leap year (Gregorian rule, as used by datetime). -/
def isLeap (y : Nat) : Bool :=
  (y % 4 == 0 && y % 100 != 0) || y % 400 == 0

/-- Number of days in a month, as validated by `datetime.strptime`. -/
def daysInMonth (y m : Nat) : Nat :=
  if m = 2 then (if isLeap y then 29 else 28)
  else if m = 4 ∨ m = 6 ∨ m = 9 ∨ m = 11 then 30
  else 31

/-- Embedding of `parse_stf_date(datestr)` (utils.py lines 532-543):
`datetime.strptime(datestr, "%Y%m%d%H%M%S")`, which raises ValueError
unless the string is exactly 14 digits encoding a valid UTC date-time.
The resulting datetime is represented by its 14-digit numeric value;
for valid dates this encoding is strictly monotone in datetime order,
so comparisons between parsed dates are preserved. -/
def parse_stf_date (datestr : String) : Except PyErr Nat :=
  let cs := datestr.toList
  if cs.length = 14 ∧ cs.all Char.isDigit then
    let n := natOfDigits cs
    let y := n / 10 ^ 10
    let mo := n / 10 ^ 8 % 100
    let d := n / 10 ^ 6 % 100
    let h := n / 10 ^ 4 % 100
    let mi := n / 10 ^ 2 % 100
    let se := n % 100
    if 1 ≤ y ∧ 1 ≤ mo ∧ mo ≤ 12 ∧ 1 ≤ d ∧ d ≤ daysInMonth y mo ∧
        h ≤ 23 ∧ mi ≤ 59 ∧ se ≤ 59 then
      .ok n
    else .error .valueError
  else .error .valueError

/-- Python `datetime.strptime` applied to a JSON value: non-strings raise
TypeError, strings are parsed by `parse_stf_date`. -/
def parse_stf_dateJ : J → Except PyErr Nat
  | .str s => parse_stf_date s
  | _ => .error .typeError

/-- The running `used_loc` accumulator of `get_device_location`
(utils.py lines 358-363). -/
structure UsedLoc where
  latitude : Option ℚ
  longitude : Option ℚ
  gps_accuracy : Option ℚ
  gps_date : Option Nat
deriving DecidableEq

/-- State threaded through the operation scan of `get_device_location`:
the accumulator, the `used_op` variable and the `location_found` flag
of the result dict. -/
structure ScanSt where
  used_loc : UsedLoc
  used_op : Option J
  location_found : Bool
deriving DecidableEq

/-- Truthiness-guarded freshness test
`used_loc[\x27gps_date\x27] and used_loc[\x27gps_date\x27] >= utcDate`
(a datetime object is always truthy, a missing date is None/falsy). -/
def gpsStale (g : Option Nat) (t : Nat) : Bool :=
  match g with
  | some d => decide (t ≤ d)
  | none => false

/-- Plain-case extraction of `get_device_location` (utils.py lines
389-408), run after the timestamp has been parsed and the freshness
check passed: copy latitude/longitude into the accumulator (each key
independently optional, a missing key leaves the previous value), set
`location_found` when a coordinate was stored, compute the accuracy
from the top-level uncertainty fields and record the new date and
used operation. -/
def plainExtract (st : ScanSt) (op : J) (utcDate : Nat) : Except PyErr ScanSt := do
  let hasLat ← op.hasKey "latitude"
  let (lat, lf1) ←
    if hasLat then do
      let v ← op.item "latitude"
      let q ← pyFloat v
      pure (some q, true)
    else pure (st.used_loc.latitude, false)
  let hasLng ← op.hasKey "longitude"
  let (lng, locFound) ←
    if hasLng then do
      let v ← op.item "longitude"
      let q ← pyFloat v
      pure (some q, true)
    else pure (st.used_loc.longitude, lf1)
  let found := st.location_found || locFound
  let hu ← op.getD "horizontalUncertainty"
  let vu ← op.getD "verticalUncertainty"
  let acc ← calc_gps_accuracy hu vu
  pure { used_loc := { latitude := lat, longitude := lng,
                       gps_accuracy := acc, gps_date := some utcDate },
         used_op := some op,
         location_found := found }

/-- Nested-case extraction of `get_device_location` (utils.py lines
427-446), run on the `encLocation` block after its timestamp parsed and
the freshness check passed.  Note the source's asymmetry: here
`location_found` is set exactly when the `longitude` key is MISSING
(the `else` of the longitude extraction), never on success. -/
def encExtract (st : ScanSt) (op loc : J) (utcDate : Nat) : Except PyErr ScanSt := do
  let hasLat ← loc.hasKey "latitude"
  let lat ←
    if hasLat then do
      let v ← loc.item "latitude"
      let q ← pyFloat v
      pure (some q)
    else pure st.used_loc.latitude
  let hasLng ← loc.hasKey "longitude"
  let lng ←
    if hasLng then do
      let v ← loc.item "longitude"
      let q ← pyFloat v
      pure (some q)
    else pure st.used_loc.longitude
  let found := if hasLng then st.location_found else true
  let hu ← loc.getD "horizontalUncertainty"
  let vu ← loc.getD "verticalUncertainty"
  let acc ← calc_gps_accuracy hu vu
  pure { used_loc := { latitude := lat, longitude := lng,
                       gps_accuracy := acc, gps_date := some utcDate },
         used_op := some op,
         location_found := found }

/-- Body of the `for op in data[\x27operation\x27]` loop of
`get_device_location` (utils.py lines 371-447), as a transition on the
scan state.  A record of the wrong type, or skipped by the source's
`continue` statements (missing timestamp in the plain case, encrypted
or dateless nested block, stale timestamp), leaves the state unchanged;
parse failures raise. -/
def processOp (st : ScanSt) (op : J) : Except PyErr ScanSt := do
  let t ← op.item "oprnType"
  if t = J.str "LOCATION" ∨ t = J.str "LASTLOC" ∨ t = J.str "OFFLINE_LOC" then do
    let hasLat ← op.hasKey "latitude"
    if hasLat then do
      let hasExtra ← op.hasKey "extra"
      let hasDt ←
        if hasExtra then do
          let ex ← op.item "extra"
          ex.hasKey "gpsUtcDt"
        else pure false
      if hasDt then do
        let ex ← op.item "extra"
        let dtJ ← ex.item "gpsUtcDt"
        let utcDate ← parse_stf_dateJ dtJ
        if gpsStale st.used_loc.gps_date utcDate then pure st
        else plainExtract st op utcDate
      else pure st
    else do
      let hasEnc ← op.hasKey "encLocation"
      if hasEnc then do
        let loc ← op.item "encLocation"
        let hasEncFlag ← loc.hasKey "encrypted"
        let isEncrypted ←
          if hasEncFlag then do
            let f ← loc.item "encrypted"
            pure (truthy f)
          else pure false
        if isEncrypted then pure st
        else do
          let hasDt ← loc.hasKey "gpsUtcDt"
          if hasDt then do
            let dtJ ← loc.item "gpsUtcDt"
            let utcDate ← parse_stf_dateJ dtJ
            if gpsStale st.used_loc.gps_date utcDate then pure st
            else encExtract st op loc utcDate
          else pure st
      else pure st
  else pure st

/-- Initial scan state: `used_loc` all None, `used_op = None`,
`location_found = False`. -/
def initSt : ScanSt :=
  { used_loc := { latitude := none, longitude := none,
                  gps_accuracy := none, gps_date := none },
    used_op := none, location_found := false }

/-- The whole operation scan of `get_device_location`. -/
def scanOps (ops : List J) : Except PyErr ScanSt :=
  ops.foldlM processOp initSt

/-- Per-device result dict built by `get_device_location`
(utils.py lines 344-352). -/
structure LocResult where
  update_success : Bool
  location_found : Bool
  used_op : Option J
  used_loc : Option UsedLoc
  ops : List J
deriving DecidableEq

/-- Processing of the HTTP-200 JSON body by `get_device_location`
(utils.py lines 343-463): the scan runs only when the `operation` key
is present with a nonempty list (`if \x27operation\x27 in data and
len(data[\x27operation\x27]) > 0`); otherwise `update_success` is set
False.  `used_op`/`used_loc` are published only when the used operation
is truthy. -/
def body200 (data : J) : Except PyErr LocResult := do
  let hasOps ← data.hasKey "operation"
  let nonempty ←
    if hasOps then do
      let opsJ ← data.item "operation"
      let n ← pyLen opsJ
      pure (decide (0 < n))
    else pure false
  if nonempty then do
    let opsJ ← data.item "operation"
    let ops ←
      match opsJ with
      | .arr xs => pure xs
      | _ => .error .typeError
    let fin ← scanOps ops
    let usedTruthy :=
      match fin.used_op with
      | some o => truthy o
      | none => false
    pure { update_success := true,
           location_found := fin.location_found,
           used_op := if usedTruthy then fin.used_op else none,
           used_loc := if usedTruthy then some fin.used_loc else none,
           ops := ops }
  else
    pure { update_success := false, location_found := false,
           used_op := none, used_loc := none, ops := [] }

/-- Authentication failure signal (ConfigEntryAuthFailed). -/
inductive Auth where
  | failed
deriving DecidableEq

/-- An HTTP response as seen by the embedded handlers: status code, raw
body text, and the parsed JSON body (meaningful when the handler calls
`.json()`). -/
structure HttpResp where
  status : Nat
  text : String
  json : J

/-- Embedding of the response handling of `get_device_location`
(utils.py lines 339-483), with the network abstracted as the received
set-last-selected-device response.  Status 200 processes the JSON body;
any Python exception while doing so is caught by the outer
`except Exception` and yields None.  On a non-200 status, a body equal
to the literal string Logout, or status 401, raises
ConfigEntryAuthFailed (re-raised by the outer handler); any other
non-200 response falls through and returns None. -/
def get_device_location (resp : HttpResp) : Except Auth (Option LocResult) :=
  if resp.status = 200 then
    match body200 resp.json with
    | .ok r => .ok (some r)
    | .error _ => .ok none
  else if resp.text = "Logout" ∨ resp.status = 401 then .error .failed
  else .ok none

/-- Embedding of `SmartThingsFindCoordinator._async_update_data`
(init file lines 107-121): devices are processed strictly in sequence,
each device's per-cycle response yielding one result; a
ConfigEntryAuthFailed raised for any device propagates immediately,
so no later device is processed. -/
def coordinator_update : List HttpResp → Except Auth (List (Option LocResult))
  | [] => .ok []
  | r :: rest =>
    match get_device_location r with
    | .error a => .error a
    | .ok t =>
      match coordinator_update rest with
      | .error a => .error a
      | .ok ts => .ok (t :: ts)

/-- Modelled from Python html.unescape semantics (stdlib, outside this
repository): character value of a named HTML entity, restricted to the
core named entities relevant to display names; the full html5 table is
not reproduced. -/
def namedEntity (name : List Char) : Option Char :=
  if name = String.toList "amp" then some '&'
  else if name = String.toList "lt" then some '<'
  else if name = String.toList "gt" then some '>'
  else if name = String.toList "quot" then some (Char.ofNat 34)
  else if name = String.toList "apos" then some (Char.ofNat 39)
  else none

/-- Modelled from Python html.unescape semantics: given the text after
an ampersand, recognise one decimal numeric character reference
(`#digits` with optional semicolon) or one named entity terminated by a
semicolon, returning the decoded character and the number of input
characters consumed after the ampersand. -/
def tryEntity (cs : List Char) : Option (Char × Nat) :=
  match cs with
  | '#' :: rest =>
      let digits := rest.takeWhile Char.isDigit
      if digits = [] then none
      else
        let v := natOfDigits digits
        if v < 0xd800 then
          let consumed :=
            match rest.drop digits.length with
            | ';' :: _ => 1 + digits.length + 1
            | _ => 1 + digits.length
          some (Char.ofNat v, consumed)
        else none
  | _ =>
      let name := cs.takeWhile Char.isAlpha
      match namedEntity name with
      | some c =>
          match cs.drop name.length with
          | ';' :: _ => some (c, name.length + 1)
          | _ => none
      | none => none

/-- Modelled from Python html.unescape semantics: one left-to-right
substitution pass over the characters; an ampersand starting a
recognised entity is replaced and scanning resumes after the consumed
input (the replacement itself is never rescanned within the same pass).
The fuel argument starts at the input length, which bounds the number
of steps since every step consumes at least one input character. -/
def unescapeAux : Nat → List Char → List Char
  | 0, cs => cs
  | _ + 1, [] => []
  | fuel + 1, c :: rest =>
      if c = '&' then
        match tryEntity rest with
        | some (d, k) => d :: unescapeAux fuel (rest.drop k)
        | none => '&' :: unescapeAux fuel rest
      else c :: unescapeAux fuel rest

/-- Modelled from Python html.unescape semantics: a single unescape pass. -/
def unescape (s : String) : String :=
  String.mk (unescapeAux s.toList.length s.toList)

/-- Display-name decoding applied by `get_devices` (utils.py lines
273-276): `html.unescape(html.unescape(device[\x27modelName\x27]))`,
i.e. exactly two unescape passes. -/
def decode_model_name (s : String) : String :=
  unescape (unescape s)

/-- Replacement of one key's value in a dict's field list, preserving
field order (Python dict item assignment for an existing key; appends
when the key is new). -/
def setAssoc : List (String × J) → String → J → List (String × J)
  | [], k, v => [(k, v)]
  | (k0, v0) :: rest, k, v =>
      if k0 = k then (k0, v) :: rest else (k0, v0) :: setAssoc rest k v

/-- Python dict item assignment `d[k] = v` (only ever applied to dicts
in the embedded code). -/
def J.setKey : J → String → J → J
  | .obj fs, k, v => .obj (setAssoc fs k v)
  | j, _, _ => j

/-- Failure modes of `get_devices`: ConfigEntryAuthFailed, or an
uncaught Python exception escaping to the caller. -/
inductive DevFail where
  | authFailed
  | pyErr (e : PyErr)
deriving DecidableEq

/-- Processing of the HTTP-200 device-list body by `get_devices`
(utils.py lines 269-293): read `deviceList`, decode each
`modelName` through two unescape passes, skip devices whose registry
entry (looked up by `dvceID`) is disabled, and collect the rest.  The
host `DeviceInfo` descriptor is presentation data and is not modelled;
the registry lookup is abstracted as the `disabled` predicate on the
`dvceID` value. -/
def get_devices_body (data : J) (disabled : J → Bool) : Except PyErr (List J) := do
  let dl ← data.item "deviceList"
  let devs ←
    match dl with
    | .arr xs => pure xs
    | _ => .error .typeError
  devs.foldlM (fun acc device => do
    let nameJ ← device.item "modelName"
    let name ←
      match nameJ with
      | .str s => pure s
      | _ => .error .typeError
    let device := J.setKey device "modelName" (J.str (decode_model_name name))
    let idJ ← device.item "dvceID"
    if disabled idJ then pure acc
    else pure (acc ++ [device])) []

/-- Embedding of the response handling of `get_devices` (utils.py lines
248-293): a non-200 status raises ConfigEntryAuthFailed exactly when it
is 404 and otherwise returns the empty list; a 200 status processes the
JSON body (whose exceptions are not caught in this function). -/
def get_devices (resp : HttpResp) (disabled : J → Bool) : Except DevFail (List J) :=
  if resp.status ≠ 200 then
    if resp.status = 404 then .error .authFailed else .ok []
  else
    match get_devices_body resp.json disabled with
    | .ok l => .ok l
    | .error e => .error (.pyErr e)

/-- Sub-location record built by `get_sub_location`
(utils.py lines 522-527). -/
structure SubLoc where
  latitude : ℚ
  longitude : ℚ
  gps_accuracy : Option ℚ
  gps_date : Nat
deriving DecidableEq

/-- Field extraction of `get_sub_location` from a matched nested block
(utils.py lines 521-527), in source evaluation order: latitude and
longitude are mandatory subscripts, the accuracy comes from optional
`.get` lookups, the date is parsed from a mandatory subscript. -/
def extract_sub_loc (loc : J) : Except PyErr SubLoc := do
  let latJ ← loc.item "latitude"
  let lat ← pyFloat latJ
  let lngJ ← loc.item "longitude"
  let lng ← pyFloat lngJ
  let hu ← loc.getD "horizontalUncertainty"
  let vu ← loc.getD "verticalUncertainty"
  let acc ← calc_gps_accuracy hu vu
  let dtJ ← loc.item "gpsUtcDt"
  let dt ← parse_stf_dateJ dtJ
  pure { latitude := lat, longitude := lng, gps_accuracy := acc, gps_date := dt }

/-- Linear scan of `get_sub_location` (utils.py lines 519-529): the
first operation whose `encLocation` dict (defaulting to an empty dict
via `.get`) contains the sub-device name wins; no later operation is
inspected.  The empty-pair return is modelled as an empty dict paired
with `none`. -/
def get_sub_location_scan (subDeviceName : String) :
    List J → Except PyErr (J × Option SubLoc)
  | [] => .ok (J.obj [], none)
  | op :: rest => do
      let encJ ←
        match op with
        | .obj fs => .ok ((J.assoc fs "encLocation").getD (J.obj []))
        | _ => .error .typeError
      let mem ← encJ.hasKey subDeviceName
      if mem then do
        let loc ← encJ.item subDeviceName
        let sub ← extract_sub_loc loc
        pure (op, some sub)
      else get_sub_location_scan subDeviceName rest

/-- Embedding of `get_sub_location(ops, subDeviceName)` (utils.py lines
505-529): the guard `not ops or not subDeviceName or len(ops) < 1`
returns the empty pair for an empty list or empty name; otherwise the
linear first-match scan runs. -/
def get_sub_location (ops : List J) (subDeviceName : String) :
    Except PyErr (J × Option SubLoc) :=
  if ops = [] ∨ subDeviceName = "" then .ok (J.obj [], none)
  else get_sub_location_scan subDeviceName ops

/-- Python `.get(key)` on a parsed JSON object body, with None for a
missing key (poll bodies are JSON objects). -/
def jsonGet (j : J) (k : String) : J :=
  match j with
  | .obj fs => (J.assoc fs k).getD .null
  | _ => .null

/-- One QR-poll outcome as observed by the loop body of
`do_login_stage_two` (utils.py lines 140-157): a non-200 status (the
loop logs and continues), a transport error (aiohttp.ClientError, which
returns None from the whole stage), or a 200 JSON body. -/
inductive PollResp where
  | httpErr (status : Nat)
  | clientError
  | rtn (body : J)

/-- Maximum number of poll iterations: the loop guard
`datetime.now() < end_time` is evaluated before each iteration and each
iteration sleeps 2 seconds with `end_time` 120 seconds after the start,
so the guard is checked at elapsed times 0, 2, 4, ... and at most 60
polls are issued. -/
def qr_poll_budget : Nat := 60

/-- Embedding of the polling loop of `do_login_stage_two` (utils.py
lines 128-157) over the stream of poll responses indexed by iteration:
a transport error aborts the stage (`Except.error`), a non-200 response
continues, a body whose `rtnCd` is SUCCESS breaks out with its
`nextURL` value, anything else continues; exhausting the budget ends
the loop with `next_url` still None. -/
def pollLoopAux (resps : Nat → PollResp) : Nat → Nat → Except Unit (Option J)
  | _, 0 => .ok none
  | i, fuel + 1 =>
      match resps i with
      | .clientError => .error ()
      | .httpErr _ => pollLoopAux resps (i + 1) fuel
      | .rtn js =>
          if jsonGet js "rtnCd" = J.str "SUCCESS" then .ok (some (jsonGet js "nextURL"))
          else pollLoopAux resps (i + 1) fuel

/-- Outcome of the polling phase of `do_login_stage_two` (utils.py
lines 128-161): the loop followed by the `if not next_url` check, which
treats both a never-assigned `next_url` (timeout) and a falsy one
(None or empty string in the SUCCESS body) as failure.  A `some`
result means the handshake proceeds past polling with that `nextURL`;
`none` means stage two fails and returns None instead of a
credential. -/
def do_login_stage_two_poll (resps : Nat → PollResp) : Option J :=
  match pollLoopAux resps 0 qr_poll_budget with
  | .error _ => none
  | .ok none => none
  | .ok (some u) => if truthy u then some u else none

/-! Theorems about the embedded program. -/

/-- Claim C3, counterexample: with a 200 response whose body carries an
EMPTY `operation` list, `get_device_location` returns
`update_success = false` — the code's `if \x27operation\x27 in data and
len(data[\x27operation\x27]) > 0` sends the empty list into the same
failure branch as a missing key, contradicting the claimed
`update_success = true` for the empty-list case. -/
theorem C3_counterexample :
    get_device_location
        { status := 200, text := "", json := J.obj [("operation", J.arr [])] } =
      .ok (some { update_success := false, location_found := false,
                  used_op := none, used_loc := none, ops := [] }) := by
  rfl

/-- Claim C3 as amended: after a 200 response, an empty `operation` list
and a missing `operation` key are treated alike — both yield
`update_success = false` and `location_found = false`; the empty list is
NOT a distinct valid no-data success. -/
theorem C3_amended :
    get_device_location
        { status := 200, text := "", json := J.obj [("operation", J.arr [])] } =
      .ok (some { update_success := false, location_found := false,
                  used_op := none, used_loc := none, ops := [] }) ∧
    get_device_location { status := 200, text := "", json := J.obj [] } =
      .ok (some { update_success := false, location_found := false,
                  used_op := none, used_loc := none, ops := [] }) := by
  exact ⟨rfl, rfl⟩

/-- Claim C4: a per-device response whose body is the literal string
Logout, or whose status is 401, makes `get_device_location` raise
ConfigEntryAuthFailed, and the coordinator's sequential cycle then
ends in that failure no matter which devices come before and which
remain after (the remainder is never processed); any other non-200
response yields `None` for that device only, without raising. -/
theorem C4_auth_abort :
    (∀ resp : HttpResp, resp.status ≠ 200 →
       (resp.text = "Logout" ∨ resp.status = 401) →
       get_device_location resp = .error Auth.failed ∧
       ∀ pre rest, coordinator_update (pre ++ resp :: rest) = .error Auth.failed) ∧
    (∀ resp : HttpResp, resp.status ≠ 200 → resp.text ≠ "Logout" →
       resp.status ≠ 401 → get_device_location resp = .ok none) := by
  constructor
  · intro resp hs hb
    have hget : get_device_location resp = .error Auth.failed := by
      unfold get_device_location
      rw [if_neg hs, if_pos hb]
    refine ⟨hget, ?_⟩
    intro pre rest
    induction pre with
    | nil => simp [coordinator_update, hget]
    | cons p ps ih =>
      simp only [List.cons_append, coordinator_update]
      cases hp : get_device_location p with
      | error a => cases a; rfl
      | ok t => simp [ih]
  · intro resp hs ht h4
    unfold get_device_location
    rw [if_neg hs, if_neg (by simp [ht, h4])]

/-- Closed witness for claim C4 at concrete inputs: a 401 response
aborts the whole cycle even with devices before and after it, and a
plain 500 response yields only a per-device failure. -/
theorem C4_auth_abort_witness :
    get_device_location { status := 401, text := "x", json := J.null } =
      .error Auth.failed ∧
    coordinator_update
        [{ status := 200, text := "", json := J.obj [] },
         { status := 401, text := "x", json := J.null },
         { status := 200, text := "", json := J.obj [] }] = .error Auth.failed ∧
    get_device_location { status := 500, text := "oops", json := J.null } =
      .ok none := by
  refine ⟨?_, ?_, ?_⟩
  · exact (C4_auth_abort.1 _ (by decide) (Or.inr rfl)).1
  · exact (C4_auth_abort.1 { status := 401, text := "x", json := J.null }
      (by decide) (Or.inr rfl)).2
      [{ status := 200, text := "", json := J.obj [] }]
      [{ status := 200, text := "", json := J.obj [] }]
  · exact C4_auth_abort.2 _ (by decide) (by decide) (by decide)

/-- Claim C5: `get_devices` raises ConfigEntryAuthFailed exactly when
the device-list response status is 404 (regardless of the registry
predicate), and any other non-200 status returns the empty list without
raising. -/
theorem C5_devices_auth :
    (∀ (resp : HttpResp) (d : J → Bool),
       get_devices resp d = .error DevFail.authFailed ↔ resp.status = 404) ∧
    (∀ (resp : HttpResp) (d : J → Bool), resp.status ≠ 200 → resp.status ≠ 404 →
       get_devices resp d = .ok []) := by
  constructor
  · intro resp d
    constructor
    · intro h
      unfold get_devices at h
      by_cases h200 : resp.status ≠ 200
      · rw [if_pos h200] at h
        by_cases h404 : resp.status = 404
        · exact h404
        · rw [if_neg h404] at h; exact absurd h (by simp)
      · rw [if_neg h200] at h
        cases hb : get_devices_body resp.json d with
        | ok l => rw [hb] at h; exact absurd h (by simp)
        | error e => rw [hb] at h; exact absurd h (by simp)
    · intro h404
      unfold get_devices
      rw [if_pos (by omega : resp.status ≠ 200), if_pos h404]
  · intro resp d h200 h404
    unfold get_devices
    rw [if_pos h200, if_neg h404]

/-- Closed witness for claim C5: a 404 device-list response raises the
authentication failure, a 500 one returns the empty list. -/
theorem C5_devices_auth_witness :
    get_devices { status := 404, text := "", json := J.null } (fun _ => false) =
      .error DevFail.authFailed ∧
    get_devices { status := 500, text := "", json := J.null } (fun _ => false) =
      .ok [] := by
  constructor
  · exact (C5_devices_auth.1 _ _).mpr rfl
  · exact C5_devices_auth.2 _ _ (by decide) (by decide)

/-- Claim C6: evaluation of `calc_gps_accuracy` at the claim's inputs.
With numeric uncertainties 3 and 4 the function returns 5.0, as
claimed; but with None (a missing uncertainty, as produced by the
callers' `.get`) it does NOT return None: `float(None)` raises
TypeError, and the function catches only ValueError, so the TypeError
escapes to the caller.  A non-numeric STRING, by contrast, does take
the intended ValueError path and returns None. -/
theorem C6_eval :
    calc_gps_accuracy (J.num 3) (J.num 4) = .ok (some 5) ∧
    calc_gps_accuracy J.null (J.num 4) = .error PyErr.typeError ∧
    calc_gps_accuracy (J.str "abc") (J.num 4) = .ok none := by
  refine ⟨?_, rfl, rfl⟩
  decide

/-- Claim C8: the display-name decoding of `get_devices` is two passes
of HTML-entity unescaping: the raw name decodes to the expected plain
name after the two passes, a single pass does not yet produce it, and a
third pass leaves the two-pass result unchanged. -/
theorem C8_double_unescape :
    decode_model_name "Benedev&amp;#39;s S22" = "Benedev\x27s S22" ∧
    unescape "Benedev&amp;#39;s S22" ≠ "Benedev\x27s S22" ∧
    unescape (decode_model_name "Benedev&amp;#39;s S22") =
      decode_model_name "Benedev&amp;#39;s S22" := by
  refine ⟨rfl, by decide, rfl⟩

/-- Poll body carrying rtnCd POLLING, as in the login-pending response. -/
def pollingBody : J := J.obj [("rtnCd", J.str "POLLING")]

/-- Poll body carrying rtnCd SUCCESS together with a nextURL. -/
def successBody (url : String) : J :=
  J.obj [("rtnCd", J.str "SUCCESS"), ("nextURL", J.str url)]

/-- Reaching a SUCCESS response after only POLLING responses breaks the
loop with that response's nextURL, whatever the stream holds later. -/
theorem pollLoopAux_success (resps : Nat → PollResp) :
    ∀ (k fuel i : Nat) (url : String), k < fuel →
    (∀ j, j < k → resps (i + j) = .rtn pollingBody) →
    resps (i + k) = .rtn (successBody url) →
    pollLoopAux resps i fuel = .ok (some (J.str url)) := by
  intro k
  induction k with
  | zero =>
    intro fuel i url hk _ hsucc
    match fuel, hk with
    | fuel + 1, _ =>
      rw [Nat.add_zero] at hsucc
      simp [pollLoopAux, hsucc, successBody, jsonGet, J.assoc]
  | succ k ih =>
    intro fuel i url hk hpoll hsucc
    match fuel, hk with
    | fuel + 1, hk =>
      have h0 : resps i = .rtn pollingBody := by
        have := hpoll 0 (Nat.succ_pos k)
        rwa [Nat.add_zero] at this
      have hstep : pollLoopAux resps i (fuel + 1) = pollLoopAux resps (i + 1) fuel := by
        simp [pollLoopAux, h0, pollingBody, jsonGet, J.assoc]
      rw [hstep]
      refine ih fuel (i + 1) url (Nat.lt_of_succ_lt_succ hk) ?_ ?_
      · intro j hj
        have := hpoll (j + 1) (Nat.succ_lt_succ hj)
        rw [show i + 1 + j = i + (j + 1) by omega]
        exact this
      · rwa [show i + 1 + k = i + (k + 1) by omega]

/-- If no response within the budget is a SUCCESS one, the loop either
times out with `next_url` unset or aborts on a transport error. -/
theorem pollLoopAux_nosuccess (resps : Nat → PollResp) :
    ∀ (fuel i : Nat),
    (∀ j js, j < fuel → resps (i + j) = .rtn js →
       jsonGet js "rtnCd" ≠ J.str "SUCCESS") →
    pollLoopAux resps i fuel = .ok none ∨ pollLoopAux resps i fuel = .error () := by
  intro fuel
  induction fuel with
  | zero => intro i _; left; rfl
  | succ fuel ih =>
    intro i h
    cases hr : resps i with
    | clientError => right; simp [pollLoopAux, hr]
    | httpErr st =>
      have := ih (i + 1) (fun j js hj hje => by
        have := h (j + 1) js (Nat.succ_lt_succ hj)
        rw [show i + (j + 1) = i + 1 + j by omega] at this
        exact this hje)
      simpa [pollLoopAux, hr] using this
    | rtn js =>
      have hne : jsonGet js "rtnCd" ≠ J.str "SUCCESS" := by
        have := h 0 js (Nat.succ_pos fuel)
        rw [Nat.add_zero] at this
        exact this hr
      have := ih (i + 1) (fun j js2 hj hje => by
        have := h (j + 1) js2 (Nat.succ_lt_succ hj)
        rw [show i + (j + 1) = i + 1 + j by omega] at this
        exact this hje)
      simpa [pollLoopAux, hr, hne] using this

/-- Claim C7: during login stage two, POLLING responses keep the loop
going and the first SUCCESS response (with a nonempty nextURL) ends it
for good — the outcome is fixed by the stream up to that response, so
later responses are never consulted and polling is never re-entered;
and when no SUCCESS response arrives among the up-to-60 polls that fit
the 120-second budget at 2-second intervals, the stage fails (returns
no credential) instead of succeeding. -/
theorem C7_polling :
    (∀ (resps resps2 : Nat → PollResp) (k : Nat) (url : String),
       k < qr_poll_budget →
       (∀ i, i < k → resps i = .rtn pollingBody) →
       resps k = .rtn (successBody url) →
       url ≠ "" →
       (∀ i, i ≤ k → resps2 i = resps i) →
       do_login_stage_two_poll resps2 = some (J.str url)) ∧
    (∀ resps : Nat → PollResp,
       (∀ i js, i < qr_poll_budget → resps i = .rtn js →
          jsonGet js "rtnCd" ≠ J.str "SUCCESS") →
       do_login_stage_two_poll resps = none) := by
  constructor
  · intro resps resps2 k url hk hpoll hsucc hurl hagree
    have hloop : pollLoopAux resps2 0 qr_poll_budget = .ok (some (J.str url)) := by
      refine pollLoopAux_success resps2 k qr_poll_budget 0 url hk ?_ ?_
      · intro j hj
        rw [Nat.zero_add, hagree j (Nat.le_of_lt hj)]
        exact hpoll j hj
      · rw [Nat.zero_add, hagree k (Nat.le_refl k)]
        exact hsucc
    simp [do_login_stage_two_poll, hloop, truthy, hurl]
  · intro resps h
    have := pollLoopAux_nosuccess resps qr_poll_budget 0
      (fun j js hj hje => h j js hj (by rwa [Nat.zero_add] at hje))
    cases this with
    | inl hl => simp [do_login_stage_two_poll, hl]
    | inr hr => simp [do_login_stage_two_poll, hr]

/-- Concrete response stream: five POLLING responses, then SUCCESS with
nextURL /x, then transport errors (which must never be reached). -/
def pollRespsW : Nat → PollResp := fun i =>
  if i < 5 then .rtn pollingBody
  else if i = 5 then .rtn (successBody "/x")
  else .clientError

/-- Concrete response stream that never reports SUCCESS. -/
def pollRespsNoSuccess : Nat → PollResp := fun _ => .rtn pollingBody

/-- Closed witness for claim C7: on the concrete streams, the handshake
proceeds past polling with /x exactly once SUCCESS is seen, and a
SUCCESS-free stream makes the stage fail. -/
theorem C7_polling_witness :
    do_login_stage_two_poll pollRespsW = some (J.str "/x") ∧
    do_login_stage_two_poll pollRespsNoSuccess = none := by
  constructor
  · refine C7_polling.1 pollRespsW pollRespsW 5 "/x" (by decide) ?_ rfl
      (by decide) (fun i _ => rfl)
    intro i hi
    interval_cases i <;> rfl
  · refine C7_polling.2 pollRespsNoSuccess ?_
    intro i js _ hje
    have h2 : PollResp.rtn pollingBody = PollResp.rtn js := hje
    injection h2 with h
    rw [← h]
    decide

/-- Match condition of the `get_sub_location` scan for one operation:
`subDeviceName in op.get(\x27encLocation\x27, empty dict)`. -/
def subloc_matches (op : J) (name : String) : Except PyErr Bool := do
  let encJ ←
    match op with
    | .obj fs => Except.ok ((J.assoc fs "encLocation").getD (J.obj []))
    | _ => Except.error PyErr.typeError
  encJ.hasKey name

/-- Operations that do not match the sub-device name are passed over by
the scan without affecting its result. -/
theorem get_sub_location_scan_skip (name : String) :
    ∀ (pre l : List J), (∀ p ∈ pre, subloc_matches p name = .ok false) →
    get_sub_location_scan name (pre ++ l) = get_sub_location_scan name l := by
  intro pre
  induction pre with
  | nil => intro l _; rfl
  | cons p ps ih =>
    intro l h
    have hp := h p (List.mem_cons_self p ps)
    have htail : ∀ q ∈ ps, subloc_matches q name = .ok false :=
      fun q hq => h q (List.mem_cons_of_mem p hq)
    cases p with
    | obj fs =>
      simp only [subloc_matches, bind, Except.bind] at hp
      simp only [List.cons_append, get_sub_location_scan, bind, Except.bind, hp]
      exact ih l htail
    | null => simp [subloc_matches, bind, Except.bind] at hp
    | bool b => simp [subloc_matches, bind, Except.bind] at hp
    | num q => simp [subloc_matches, bind, Except.bind] at hp
    | str s => simp [subloc_matches, bind, Except.bind] at hp
    | arr xs => simp [subloc_matches, bind, Except.bind] at hp

/-- Claim C9: `get_sub_location` returns the extraction from the first
operation (in list order) whose `encLocation` contains the sub-device
name — its result over `pre ++ op :: rest` equals its result over
`[op]` alone whenever nothing in `pre` matches and `op` does, so later
(possibly fresher) matches in `rest` are never consulted; and when no
operation matches, it returns the empty pair. -/
theorem C9_first_match :
    (∀ (pre rest : List J) (op : J) (name : String), name ≠ "" →
       (∀ p ∈ pre, subloc_matches p name = .ok false) →
       subloc_matches op name = .ok true →
       get_sub_location (pre ++ op :: rest) name = get_sub_location [op] name) ∧
    (∀ (ops : List J) (name : String),
       (∀ p ∈ ops, subloc_matches p name = .ok false) →
       get_sub_location ops name = .ok (J.obj [], none)) := by
  constructor
  · intro pre rest op name hname hpre hop
    unfold get_sub_location
    rw [if_neg (by simp [hname]), if_neg (by simp [hname])]
    rw [get_sub_location_scan_skip name pre (op :: rest) hpre]
    cases op with
    | obj fs =>
      simp only [subloc_matches, bind, Except.bind] at hop
      simp only [get_sub_location_scan, bind, Except.bind, hop]
      simp
    | null => simp [subloc_matches, bind, Except.bind] at hop
    | bool b => simp [subloc_matches, bind, Except.bind] at hop
    | num q => simp [subloc_matches, bind, Except.bind] at hop
    | str s => simp [subloc_matches, bind, Except.bind] at hop
    | arr xs => simp [subloc_matches, bind, Except.bind] at hop
  · intro ops name h
    unfold get_sub_location
    by_cases hc : ops = [] ∨ name = ""
    · rw [if_pos hc]
    · rw [if_neg hc]
      have := get_sub_location_scan_skip name ops [] h
      simpa using this

/-- Concrete nested location block used by the C9 witness. -/
def subLocBlockW : J :=
  J.obj [("latitude", J.num 1), ("longitude", J.num 2),
         ("horizontalUncertainty", J.num 3), ("verticalUncertainty", J.num 4),
         ("gpsUtcDt", J.str "20240101000000")]

/-- Operation whose encLocation holds only the right sub-device. -/
def subOpMissW : J := J.obj [("encLocation", J.obj [("right", subLocBlockW)])]

/-- Operation whose encLocation holds the left sub-device. -/
def subOpHitW : J := J.obj [("encLocation", J.obj [("left", subLocBlockW)])]

/-- Closed witness for claim C9 at concrete inputs: the scan skips a
non-matching operation, stops at the first matching one (whatever
follows it), and returns the empty pair when nothing matches. -/
theorem C9_first_match_witness :
    get_sub_location [subOpMissW, subOpHitW, J.null] "left" =
      get_sub_location [subOpHitW] "left" ∧
    get_sub_location [subOpMissW] "left" = .ok (J.obj [], none) := by
  constructor
  · exact C9_first_match.1 [subOpMissW] [J.null] subOpHitW "left" (by decide)
      (by intro p hp
          rw [List.mem_singleton] at hp
          subst hp
          decide)
      (by decide)
  · exact C9_first_match.2 [subOpMissW] "left"
      (by intro p hp
          rw [List.mem_singleton] at hp
          subst hp
          decide)

/-- Bridge lemma: a scan failure on a nonempty operation list makes the
body processing fail with the same exception. -/
theorem body200_scan_error (L : List J) (e : PyErr) (hL : L ≠ [])
    (h : scanOps L = .error e) :
    body200 (J.obj [("operation", J.arr L)]) = .error e := by
  have hlen : decide (0 < L.length) = true := by
    simpa using List.length_pos.mpr hL
  simp only [body200, bind, Except.bind, J.hasKey, J.assoc, pyLen, J.item,
    if_pos rfl, Option.isSome_some, hlen, if_true, h, pure, Except.pure]

/-- Bridge lemma: a successful scan of a nonempty operation list yields
the 200-body result assembled from the final scan state. -/
theorem body200_scan_ok (L : List J) (fin : ScanSt) (hL : L ≠ [])
    (h : scanOps L = .ok fin) :
    body200 (J.obj [("operation", J.arr L)]) =
      .ok { update_success := true,
            location_found := fin.location_found,
            used_op := if (match fin.used_op with
                           | some o => truthy o
                           | none => false) then fin.used_op else none,
            used_loc := if (match fin.used_op with
                            | some o => truthy o
                            | none => false) then some fin.used_loc else none,
            ops := L } := by
  have hlen : decide (0 < L.length) = true := by
    simpa using List.length_pos.mpr hL
  simp only [body200, bind, Except.bind, J.hasKey, J.assoc, pyLen, J.item,
    if_pos rfl, Option.isSome_some, hlen, if_true, h]
  simp [h, pure, Except.pure]

/-- Claim C10: a LOCATION/LASTLOC/OFFLINE_LOC record carrying a present
but unparseable timestamp string makes the scan step raise ValueError
(first part); the exception escapes the per-operation loop to the outer
handler, so the whole `get_device_location` call returns None for that
cycle (second part); whereas a record with the timestamp missing
altogether is merely skipped, leaving the scan state unchanged (third
part). -/
theorem C10_unparseable_date :
    (∀ (s : ScanSt) (op ty ex : J) (d : String),
       op.item "oprnType" = .ok ty →
       (ty = J.str "LOCATION" ∨ ty = J.str "LASTLOC" ∨ ty = J.str "OFFLINE_LOC") →
       op.hasKey "latitude" = .ok true →
       op.hasKey "extra" = .ok true →
       op.item "extra" = .ok ex →
       ex.hasKey "gpsUtcDt" = .ok true →
       ex.item "gpsUtcDt" = .ok (J.str d) →
       parse_stf_date d = .error .valueError →
       processOp s op = .error .valueError) ∧
    (∀ (txt : String) (pre rest : List J) (op : J) (s : ScanSt),
       List.foldlM processOp initSt pre = .ok s →
       processOp s op = .error .valueError →
       get_device_location
         ⟨200, txt, J.obj [("operation", J.arr (pre ++ op :: rest))]⟩ = .ok none) ∧
    (∀ (s : ScanSt) (op ty : J),
       op.item "oprnType" = .ok ty →
       (ty = J.str "LOCATION" ∨ ty = J.str "LASTLOC" ∨ ty = J.str "OFFLINE_LOC") →
       op.hasKey "latitude" = .ok true →
       op.hasKey "extra" = .ok false →
       processOp s op = .ok s) := by
  refine ⟨?_, ?_, ?_⟩
  · intro s op ty ex d h1 h2 h3 h4 h5 h6 h7 h8
    simp only [processOp, bind, Except.bind, h1]
    rw [if_pos h2]
    simp only [h3, h4, h5, h6, h7, if_true, parse_stf_dateJ, h8]
  · intro txt pre rest op s hpre herr
    have hscan : scanOps (pre ++ op :: rest) = .error .valueError := by
      unfold scanOps
      rw [List.foldlM_append]
      simp only [bind, Except.bind, hpre, List.foldlM_cons, herr]
    have hbody := body200_scan_error (pre ++ op :: rest) .valueError (by simp) hscan
    unfold get_device_location
    rw [if_pos rfl, hbody]
  · intro s op ty h1 h2 h3 h4
    simp only [processOp, bind, Except.bind, h1]
    rw [if_pos h2]
    simp only [h3, h4, if_true, Bool.false_eq_true, if_false, pure, Except.pure]

/-- Operation of an eligible type with a latitude and a present but
unparseable timestamp string, used by the C10 witness. -/
def opBadDateW : J :=
  J.obj [("oprnType", J.str "LOCATION"), ("latitude", J.num 1),
         ("extra", J.obj [("gpsUtcDt", J.str "garbage")])]

/-- Operation of an eligible type with a latitude but no timestamp at
all, used by the C10 witness. -/
def opNoDateW : J :=
  J.obj [("oprnType", J.str "LOCATION"), ("latitude", J.num 1)]

/-- Closed witness for claim C10: the malformed-timestamp record raises
and makes the whole device update return None, while the record with
the timestamp missing is skipped with the state unchanged. -/
theorem C10_unparseable_date_witness :
    processOp initSt opBadDateW = .error .valueError ∧
    get_device_location ⟨200, "", J.obj [("operation", J.arr [opBadDateW])]⟩ =
      .ok none ∧
    processOp initSt opNoDateW = .ok initSt := by
  have h1 := C10_unparseable_date.1 initSt opBadDateW (J.str "LOCATION")
    (J.obj [("gpsUtcDt", J.str "garbage")]) "garbage" rfl (Or.inl rfl)
    rfl rfl rfl rfl rfl (by decide)
  refine ⟨h1, ?_, ?_⟩
  · exact C10_unparseable_date.2.1 "" [] [] opBadDateW initSt rfl h1
  · exact C10_unparseable_date.2.2 initSt opNoDateW (J.str "LOCATION")
      rfl (Or.inl rfl) rfl rfl

/-- Timestamp with which an operation record reaches the freshness
comparison of the scan: the same type test, key tests, encrypted-flag
test and timestamp parse as `processOp`, but stopping short of the
extraction; `ok none` means the record is skipped before any freshness
comparison, an error is a parse/access failure on the way. -/
def eligTs (op : J) : Except PyErr (Option Nat) := do
  let t ← op.item "oprnType"
  if t = J.str "LOCATION" ∨ t = J.str "LASTLOC" ∨ t = J.str "OFFLINE_LOC" then do
    let hasLat ← op.hasKey "latitude"
    if hasLat then do
      let hasExtra ← op.hasKey "extra"
      let hasDt ←
        if hasExtra then do
          let ex ← op.item "extra"
          ex.hasKey "gpsUtcDt"
        else pure false
      if hasDt then do
        let ex ← op.item "extra"
        let dtJ ← ex.item "gpsUtcDt"
        let utcDate ← parse_stf_dateJ dtJ
        pure (some utcDate)
      else pure none
    else do
      let hasEnc ← op.hasKey "encLocation"
      if hasEnc then do
        let loc ← op.item "encLocation"
        let hasEncFlag ← loc.hasKey "encrypted"
        let isEncrypted ←
          if hasEncFlag then do
            let f ← loc.item "encrypted"
            pure (truthy f)
          else pure false
        if isEncrypted then pure none
        else do
          let hasDt ← loc.hasKey "gpsUtcDt"
          if hasDt then do
            let dtJ ← loc.item "gpsUtcDt"
            let utcDate ← parse_stf_dateJ dtJ
            pure (some utcDate)
          else pure none
      else pure none
  else pure none

/-- Eligibility timestamp of a record as a plain option (errors mapped
to `none`; under a successful scan the error case never occurs). -/
def eligTsOpt (op : J) : Option Nat :=
  match eligTs op with
  | .ok t? => t?
  | .error _ => none

/-- Maximum of two optional timestamps (`none` acts as bottom). -/
def omax : Option Nat → Option Nat → Option Nat
  | none, b => b
  | some a, none => some a
  | some a, some b => some (max a b)

/-- Maximum eligibility timestamp over an operation list. -/
def maxTsP (ops : List J) : Option Nat :=
  (ops.map eligTsOpt).foldl omax none

/-- What a record contributes to `location_found` when its extraction
fires: a plain-case record (latitude key present) always sets the flag,
a nested-case record sets it exactly when its block LACKS the longitude
key (the source's asymmetric `else`). -/
def lfContrib (op : J) : Bool :=
  match op.hasKey "latitude" with
  | .ok true => true
  | _ =>
    match op.item "encLocation" with
    | .ok loc =>
      match loc.hasKey "longitude" with
      | .ok b => !b
      | .error _ => false
    | .error _ => false

/-- Specification of the final `location_found` flag: walking the list
with running maximum `m`, a record whose eligibility timestamp beats
`m` fires and contributes `lfContrib`; stale or skipped records
contribute nothing. -/
def lfSpec (m : Option Nat) : List J → Bool
  | [] => false
  | op :: rest =>
    match eligTsOpt op with
    | none => lfSpec m rest
    | some t =>
      if gpsStale m t then lfSpec m rest
      else (lfContrib op || lfSpec (some t) rest)

theorem plainExtract_ok (st : ScanSt) (op : J) (t : Nat) (st2 : ScanSt)
    (hlat : op.hasKey "latitude" = .ok true)
    (h : plainExtract st op t = .ok st2) :
    st2.used_loc.gps_date = some t ∧ st2.location_found = true := by
  unfold plainExtract at h
  simp only [bind, Except.bind, hlat, pure, Except.pure, if_true] at h
  iterate 12 (all_goals (try split at h))
  all_goals
    first
    | exact Except.noConfusion h
    | (injection h with h2; subst h2; exact ⟨rfl, by simp⟩)
theorem encExtract_ok (st : ScanSt) (op loc : J) (t : Nat) (st2 : ScanSt) (b : Bool)
    (hlng : loc.hasKey "longitude" = .ok b)
    (h : encExtract st op loc t = .ok st2) :
    st2.used_loc.gps_date = some t ∧
    st2.location_found = (st.location_found || !b) := by
  unfold encExtract at h
  simp only [bind, Except.bind, hlng, pure, Except.pure] at h
  iterate 12 (all_goals (try split at h))
  all_goals
    first
    | exact Except.noConfusion h
    | (injection h with h2; subst h2; refine ⟨rfl, ?_⟩; simp_all)

theorem hasKey_ok_any (loc : J) (k k2 : String) (b : Bool)
    (h : loc.hasKey k = .ok b) : ∃ b2, loc.hasKey k2 = .ok b2 := by
  cases loc <;> simp [J.hasKey] at h ⊢
/-- Case analysis of one scan step: a successful `processOp` either
skips the record before any freshness comparison (state unchanged, no
eligibility timestamp), or skips it as stale (state unchanged), or
fires, stamping the record's timestamp and or-ing `lfContrib` into
`location_found`. -/
theorem processOp_spec (st : ScanSt) (op : J) (st2 : ScanSt)
    (h : processOp st op = .ok st2) :
    (eligTsOpt op = none ∧ st2 = st) ∨
    (∃ t, eligTsOpt op = some t ∧ gpsStale st.used_loc.gps_date t = true ∧ st2 = st) ∨
    (∃ t, eligTsOpt op = some t ∧ gpsStale st.used_loc.gps_date t = false ∧
       st2.used_loc.gps_date = some t ∧
       st2.location_found = (st.location_found || lfContrib op)) := by
  have hok : ∀ (a : ScanSt), Except.ok (ε := PyErr) a = Except.ok st2 → st2 = a := by
    intro a ha
    injection ha with h2
    exact h2.symm
  simp only [processOp, bind, Except.bind, pure, Except.pure] at h
  cases hty : op.item "oprnType" with
  | error e => simp only [hty, eq_self_iff_true, if_true, Bool.false_eq_true, if_false] at h; exact Except.noConfusion h
  | ok t0 =>
  simp only [hty] at h
  by_cases htype : (t0 = J.str "LOCATION" ∨ t0 = J.str "LASTLOC" ∨ t0 = J.str "OFFLINE_LOC")
  case neg =>
    rw [if_neg htype] at h
    refine Or.inl ⟨?_, hok st h⟩
    simp only [eligTsOpt, eligTs, bind, Except.bind, pure, Except.pure, hty, if_neg htype]
  case pos =>
  rw [if_pos htype] at h
  cases hlat : op.hasKey "latitude" with
  | error e => simp only [hlat, eq_self_iff_true, if_true, Bool.false_eq_true, if_false] at h; exact Except.noConfusion h
  | ok bl =>
  simp only [hlat, eq_self_iff_true, if_true, Bool.false_eq_true, if_false] at h
  cases bl with
  | true =>
    cases hext : op.hasKey "extra" with
    | error e => simp only [hext, eq_self_iff_true, if_true, Bool.false_eq_true, if_false] at h; exact Except.noConfusion h
    | ok be =>
    simp only [hext, eq_self_iff_true, if_true, Bool.false_eq_true, if_false] at h
    cases be with
    | false =>
      refine Or.inl ⟨?_, hok st h⟩
      simp only [eligTsOpt, eligTs, bind, Except.bind, pure, Except.pure, hty, if_pos htype,
        hlat, hext, eq_self_iff_true, if_true, Bool.false_eq_true, if_false]
    | true =>
      cases hex : op.item "extra" with
      | error e => simp only [hex, eq_self_iff_true, if_true, Bool.false_eq_true, if_false] at h; exact Except.noConfusion h
      | ok ex =>
      simp only [hex] at h
      cases hdtk : ex.hasKey "gpsUtcDt" with
      | error e => simp only [hdtk, eq_self_iff_true, if_true, Bool.false_eq_true, if_false] at h; exact Except.noConfusion h
      | ok bd =>
      simp only [hdtk, eq_self_iff_true, if_true, Bool.false_eq_true, if_false] at h
      cases bd with
      | false =>
        refine Or.inl ⟨?_, hok st h⟩
        simp only [eligTsOpt, eligTs, bind, Except.bind, pure, Except.pure, hty, if_pos htype,
          hlat, hext, hex, hdtk, eq_self_iff_true, if_true, Bool.false_eq_true, if_false]
      | true =>
        cases hdtj : ex.item "gpsUtcDt" with
        | error e => simp only [hdtj, eq_self_iff_true, if_true, Bool.false_eq_true, if_false] at h; exact Except.noConfusion h
        | ok dtJ =>
        simp only [hdtj] at h
        cases hp : parse_stf_dateJ dtJ with
        | error e => simp only [hp, eq_self_iff_true, if_true, Bool.false_eq_true, if_false] at h; exact Except.noConfusion h
        | ok time =>
        simp only [hp] at h
        have helig : eligTsOpt op = some time := by
          simp only [eligTsOpt, eligTs, bind, Except.bind, pure, Except.pure, hty, if_pos htype,
            hlat, hext, hex, hdtk, hdtj, hp, eq_self_iff_true, if_true, Bool.false_eq_true,
            if_false]
        cases hfresh : gpsStale st.used_loc.gps_date time with
        | true =>
          simp only [hfresh, eq_self_iff_true, if_true] at h
          exact Or.inr (Or.inl ⟨time, helig, hfresh, hok st h⟩)
        | false =>
          simp only [hfresh, Bool.false_eq_true, if_false] at h
          have hplain := plainExtract_ok st op time st2 hlat h
          refine Or.inr (Or.inr ⟨time, helig, hfresh, hplain.1, ?_⟩)
          have hcontrib : lfContrib op = true := by
            simp only [lfContrib, hlat]
          rw [hcontrib, Bool.or_true, hplain.2]
  | false =>
    cases henc : op.hasKey "encLocation" with
    | error e => simp only [henc, eq_self_iff_true, if_true, Bool.false_eq_true, if_false] at h; exact Except.noConfusion h
    | ok ben =>
    simp only [henc, eq_self_iff_true, if_true, Bool.false_eq_true, if_false] at h
    cases ben with
    | false =>
      refine Or.inl ⟨?_, hok st h⟩
      simp only [eligTsOpt, eligTs, bind, Except.bind, pure, Except.pure, hty, if_pos htype,
        hlat, henc, eq_self_iff_true, if_true, Bool.false_eq_true, if_false]
    | true =>
      cases hloc : op.item "encLocation" with
      | error e => simp only [hloc, eq_self_iff_true, if_true, Bool.false_eq_true, if_false] at h; exact Except.noConfusion h
      | ok loc =>
      simp only [hloc] at h
      cases hef : loc.hasKey "encrypted" with
      | error e => simp only [hef, eq_self_iff_true, if_true, Bool.false_eq_true, if_false] at h; exact Except.noConfusion h
      | ok bef =>
      simp only [hef, eq_self_iff_true, if_true, Bool.false_eq_true, if_false] at h
      have hcontribE : ∀ bL, loc.hasKey "longitude" = .ok bL → lfContrib op = !bL := by
        intro bL hbL
        simp only [lfContrib, hlat, hloc, hbL]
      cases bef with
      | true =>
        cases hf : loc.item "encrypted" with
        | error e => simp only [hf, eq_self_iff_true, if_true, Bool.false_eq_true, if_false] at h; exact Except.noConfusion h
        | ok fv =>
        simp only [hf] at h
        cases htr : truthy fv with
        | true =>
          simp only [htr, eq_self_iff_true, if_true, Bool.false_eq_true, if_false] at h
          refine Or.inl ⟨?_, hok st h⟩
          simp only [eligTsOpt, eligTs, bind, Except.bind, pure, Except.pure, hty, if_pos htype,
            hlat, henc, hloc, hef, hf, htr, eq_self_iff_true, if_true, Bool.false_eq_true,
            if_false]
        | false =>
          simp only [htr, eq_self_iff_true, if_true, Bool.false_eq_true, if_false] at h
          cases hdtk2 : loc.hasKey "gpsUtcDt" with
          | error e => simp only [hdtk2, eq_self_iff_true, if_true, Bool.false_eq_true, if_false] at h; exact Except.noConfusion h
          | ok bd2 =>
          simp only [hdtk2, eq_self_iff_true, if_true, Bool.false_eq_true, if_false] at h
          cases bd2 with
          | false =>
            refine Or.inl ⟨?_, hok st h⟩
            simp only [eligTsOpt, eligTs, bind, Except.bind, pure, Except.pure, hty,
              if_pos htype, hlat, henc, hloc, hef, hf, htr, hdtk2, eq_self_iff_true, if_true,
              Bool.false_eq_true, if_false]
          | true =>
            cases hdtj2 : loc.item "gpsUtcDt" with
            | error e => simp only [hdtj2, eq_self_iff_true, if_true, Bool.false_eq_true, if_false] at h; exact Except.noConfusion h
            | ok dtJ2 =>
            simp only [hdtj2] at h
            cases hp2 : parse_stf_dateJ dtJ2 with
            | error e => simp only [hp2, eq_self_iff_true, if_true, Bool.false_eq_true, if_false] at h; exact Except.noConfusion h
            | ok time =>
            simp only [hp2] at h
            have helig : eligTsOpt op = some time := by
              simp only [eligTsOpt, eligTs, bind, Except.bind, pure, Except.pure, hty,
                if_pos htype, hlat, henc, hloc, hef, hf, htr, hdtk2, hdtj2, hp2,
                eq_self_iff_true, if_true, Bool.false_eq_true, if_false]
            cases hfresh : gpsStale st.used_loc.gps_date time with
            | true =>
              simp only [hfresh, eq_self_iff_true, if_true] at h
              exact Or.inr (Or.inl ⟨time, helig, hfresh, hok st h⟩)
            | false =>
              simp only [hfresh, Bool.false_eq_true, if_false] at h
              obtain ⟨bL, hbL⟩ := hasKey_ok_any loc "encrypted" "longitude" true hef
              have henc2 := encExtract_ok st op loc time st2 bL hbL h
              refine Or.inr (Or.inr ⟨time, helig, hfresh, henc2.1, ?_⟩)
              rw [hcontribE bL hbL, henc2.2]
      | false =>
        cases hdtk2 : loc.hasKey "gpsUtcDt" with
        | error e => simp only [hdtk2, eq_self_iff_true, if_true, Bool.false_eq_true, if_false] at h; exact Except.noConfusion h
        | ok bd2 =>
        simp only [hdtk2, eq_self_iff_true, if_true, Bool.false_eq_true, if_false] at h
        cases bd2 with
        | false =>
          refine Or.inl ⟨?_, hok st h⟩
          simp only [eligTsOpt, eligTs, bind, Except.bind, pure, Except.pure, hty,
            if_pos htype, hlat, henc, hloc, hef, hdtk2, eq_self_iff_true, if_true,
            Bool.false_eq_true, if_false]
        | true =>
          cases hdtj2 : loc.item "gpsUtcDt" with
          | error e => simp only [hdtj2, eq_self_iff_true, if_true, Bool.false_eq_true, if_false] at h; exact Except.noConfusion h
          | ok dtJ2 =>
          simp only [hdtj2] at h
          cases hp2 : parse_stf_dateJ dtJ2 with
          | error e => simp only [hp2, eq_self_iff_true, if_true, Bool.false_eq_true, if_false] at h; exact Except.noConfusion h
          | ok time =>
          simp only [hp2] at h
          have helig : eligTsOpt op = some time := by
            simp only [eligTsOpt, eligTs, bind, Except.bind, pure, Except.pure, hty,
              if_pos htype, hlat, henc, hloc, hef, hdtk2, hdtj2, hp2, eq_self_iff_true,
              if_true, Bool.false_eq_true, if_false]
          cases hfresh : gpsStale st.used_loc.gps_date time with
          | true =>
            simp only [hfresh, eq_self_iff_true, if_true] at h
            exact Or.inr (Or.inl ⟨time, helig, hfresh, hok st h⟩)
          | false =>
            simp only [hfresh, Bool.false_eq_true, if_false] at h
            obtain ⟨bL, hbL⟩ := hasKey_ok_any loc "encrypted" "longitude" false hef
            have henc2 := encExtract_ok st op loc time st2 bL hbL h
            refine Or.inr (Or.inr ⟨time, helig, hfresh, henc2.1, ?_⟩)
            rw [hcontribE bL hbL, henc2.2]
/-- One scan step updates the accumulator date to the maximum of the
previous date and the record's eligibility timestamp. -/
theorem processOp_gps (st : ScanSt) (op : J) (st2 : ScanSt)
    (h : processOp st op = .ok st2) :
    st2.used_loc.gps_date = omax st.used_loc.gps_date (eligTsOpt op) := by
  obtain ⟨he, h2⟩ | ⟨t, he, hstale, h2⟩ | ⟨t, he, hfresh, hgps, _⟩ :=
    processOp_spec st op st2 h
  · rw [h2, he]; cases st.used_loc.gps_date <;> rfl
  · rw [h2, he]
    cases hg : st.used_loc.gps_date with
    | none => rw [hg] at hstale; simp [gpsStale] at hstale
    | some d =>
      rw [hg] at hstale
      simp only [gpsStale, decide_eq_true_eq] at hstale
      simp [omax, Nat.max_eq_left hstale, hg]
  · rw [he, hgps]
    cases hg : st.used_loc.gps_date with
    | none => rfl
    | some d =>
      rw [hg] at hfresh
      simp only [gpsStale, decide_eq_false_iff_not, Nat.not_le] at hfresh
      simp [omax, Nat.max_eq_right (Nat.le_of_lt hfresh)]

/-- The scan fold accumulates the running maximum of the eligibility
timestamps. -/
theorem foldlM_gps (ops : List J) : ∀ (s s2 : ScanSt),
    ops.foldlM processOp s = .ok s2 →
    s2.used_loc.gps_date = (ops.map eligTsOpt).foldl omax s.used_loc.gps_date := by
  induction ops with
  | nil =>
    intro s s2 h
    simp only [List.foldlM_nil, pure, Except.pure] at h
    injection h with h2
    rw [← h2]
    rfl
  | cons op rest ih =>
    intro s s2 h
    rw [List.foldlM_cons] at h
    cases h1 : processOp s op with
    | error e => simp [h1, bind, Except.bind] at h
    | ok s1 =>
      have hrest : rest.foldlM processOp s1 = .ok s2 := by
        simpa [h1, bind, Except.bind] using h
      rw [List.map_cons, List.foldl_cons, ← processOp_gps s op s1 h1]
      exact ih s1 s2 hrest

/-- The final `gps_date` of a successful scan is the maximum eligibility
timestamp of the list. -/
theorem scanOps_gps (ops : List J) (s : ScanSt) (h : scanOps ops = .ok s) :
    s.used_loc.gps_date = maxTsP ops :=
  foldlM_gps ops initSt s h

theorem omax_comm (a b : Option Nat) : omax a b = omax b a := by
  cases a <;> cases b <;> simp [omax, Nat.max_comm]

theorem omax_right_comm (b x y : Option Nat) :
    omax (omax b y) x = omax (omax b x) y := by
  cases b <;> cases x <;> cases y <;>
    simp [omax, max_comm, max_assoc, max_left_comm]

/-- Folding `omax` is invariant under permutation of the list. -/
theorem foldl_omax_perm {l1 l2 : List (Option Nat)} (p : l1.Perm l2) :
    ∀ b, l1.foldl omax b = l2.foldl omax b := by
  induction p with
  | nil => intro b; rfl
  | cons x _ ih => intro b; simp only [List.foldl_cons, ih]
  | swap x y l => intro b; simp only [List.foldl_cons, omax_right_comm]
  | trans _ _ ih1 ih2 => intro b; rw [ih1, ih2]

/-- The maximum eligibility timestamp is permutation-invariant. -/
theorem maxTsP_perm (ops1 ops2 : List J) (p : ops1.Perm ops2) :
    maxTsP ops1 = maxTsP ops2 :=
  foldl_omax_perm (p.map eligTsOpt) none

/-- The scan fold computes `location_found` as specified by `lfSpec`
running from the current accumulator date. -/
theorem foldlM_lf (ops : List J) : ∀ (s s2 : ScanSt),
    ops.foldlM processOp s = .ok s2 →
    s2.location_found = (s.location_found || lfSpec s.used_loc.gps_date ops) := by
  induction ops with
  | nil =>
    intro s s2 h
    simp only [List.foldlM_nil, pure, Except.pure] at h
    injection h with h2
    rw [← h2]
    simp [lfSpec]
  | cons op rest ih =>
    intro s s2 h
    rw [List.foldlM_cons] at h
    cases h1 : processOp s op with
    | error e => simp [h1, bind, Except.bind] at h
    | ok s1 =>
      have hrest : rest.foldlM processOp s1 = .ok s2 := by
        simpa [h1, bind, Except.bind] using h
      have hs2 := ih s1 s2 hrest
      obtain ⟨he, h2⟩ | ⟨t, he, hstale, h2⟩ | ⟨t, he, hfresh, hgps, hlf⟩ :=
        processOp_spec s op s1 h1
      · rw [h2] at hs2
        rw [hs2]
        simp only [lfSpec, he]
      · rw [h2] at hs2
        rw [hs2]
        simp only [lfSpec, he, hstale, if_true]
      · rw [hs2, hlf, hgps]
        simp only [lfSpec, he, hfresh, Bool.false_eq_true, if_false, Bool.or_assoc]

/-- The final `location_found` of a successful scan is `lfSpec` from an
empty accumulator. -/
theorem scanOps_lf (ops : List J) (s : ScanSt) (h : scanOps ops = .ok s) :
    s.location_found = lfSpec none ops := by
  have := foldlM_lf ops initSt s h
  simpa [initSt] using this
/-- Inversion of the 200-body processing: a result carrying a published
`used_loc` came from a successful scan of the result's operation
list. -/
theorem body200_inv (data : J) (r : LocResult) (ul : UsedLoc)
    (h : body200 data = .ok r) (hl : r.used_loc = some ul) :
    ∃ fin, scanOps r.ops = .ok fin ∧ ul = fin.used_loc := by
  simp only [body200, bind, Except.bind, pure, Except.pure] at h
  iterate 10 (all_goals (try split at h))
  all_goals (try exact Except.noConfusion h)
  all_goals (injection h with h2; subst h2)
  all_goals (try exact Option.noConfusion hl)
  all_goals (injection hl with h3; exact ⟨_, by assumption, h3.symm⟩)

/-- Inversion of the 200-body processing for the `location_found` flag:
it always equals `lfSpec` over the result's operation list (in the
no-data failure branch both sides are trivially false). -/
theorem body200_lf (data : J) (r : LocResult) (h : body200 data = .ok r) :
    r.location_found = lfSpec none r.ops := by
  simp only [body200, bind, Except.bind, pure, Except.pure] at h
  iterate 10 (all_goals (try split at h))
  all_goals (try exact Except.noConfusion h)
  all_goals (injection h with h2; subst h2)
  all_goals (first
    | exact scanOps_lf _ _ (by assumption)
    | simp [lfSpec])

/-- Claim C1 as amended: the published `used_loc.gps_date` equals the
maximum eligibility timestamp over ALL records of the response's
operation list — including records that passed the freshness check
without yielding any coordinate — and that maximum (hence `gps_date`)
is permutation-invariant, although the full `used_loc` is not. -/
theorem C1_amended :
    (∀ (resp : HttpResp) (r : LocResult) (ul : UsedLoc),
       get_device_location resp = .ok (some r) → r.used_loc = some ul →
       ul.gps_date = maxTsP r.ops) ∧
    (∀ (ops1 ops2 : List J) (s1 s2 : ScanSt),
       scanOps ops1 = .ok s1 → scanOps ops2 = .ok s2 → ops1.Perm ops2 →
       s1.used_loc.gps_date = s2.used_loc.gps_date) := by
  constructor
  · intro resp r ul hg hl
    unfold get_device_location at hg
    by_cases hs : resp.status = 200
    · rw [if_pos hs] at hg
      cases hb : body200 resp.json with
      | error e =>
        simp only [hb] at hg
        injection hg with h2
        exact Option.noConfusion h2
      | ok r0 =>
        simp only [hb] at hg
        injection hg with h2
        injection h2 with h3
        subst h3
        obtain ⟨fin, hscan, hul⟩ := body200_inv resp.json r0 ul hb hl
        rw [hul]
        exact scanOps_gps _ _ hscan
    · rw [if_neg hs] at hg
      split at hg
      · exact Except.noConfusion hg
      · injection hg with h2
        exact Option.noConfusion h2
  · intro ops1 ops2 s1 s2 h1 h2 p
    rw [scanOps_gps ops1 s1 h1, scanOps_gps ops2 s2 h2, maxTsP_perm ops1 ops2 p]

/-- Claim C2 as amended: `location_found` equals `lfSpec` over the
operation list — it is set by records that fire the extraction, via the
plain branch (latitude key present, longitude irrelevant) or via the
nested branch when the longitude key is MISSING; it is not "some record
yielded both coordinates". -/
theorem C2_amended :
    ∀ (resp : HttpResp) (r : LocResult),
      get_device_location resp = .ok (some r) →
      r.location_found = lfSpec none r.ops := by
  intro resp r hg
  unfold get_device_location at hg
  by_cases hs : resp.status = 200
  · rw [if_pos hs] at hg
    cases hb : body200 resp.json with
    | error e =>
      simp only [hb] at hg
      injection hg with h2
      exact Option.noConfusion h2
    | ok r0 =>
      simp only [hb] at hg
      injection hg with h2
      injection h2 with h3
      subst h3
      exact body200_lf resp.json r0 hb
  · rw [if_neg hs] at hg
    split at hg
    · exact Except.noConfusion hg
    · injection hg with h2
      exact Option.noConfusion h2

/-- Plain record with both coordinates and timestamp ...00. -/
def opC1A : J :=
  J.obj [("oprnType", J.str "LOCATION"), ("latitude", J.num 1),
         ("longitude", J.num 2), ("horizontalUncertainty", J.num 3),
         ("verticalUncertainty", J.num 4),
         ("extra", J.obj [("gpsUtcDt", J.str "20240101000000")])]

/-- Plain record with only a latitude and fresher timestamp ...01. -/
def opC1B : J :=
  J.obj [("oprnType", J.str "LOCATION"), ("latitude", J.num 3),
         ("horizontalUncertainty", J.num 3), ("verticalUncertainty", J.num 4),
         ("extra", J.obj [("gpsUtcDt", J.str "20240101000001")])]

/-- Nested-case record bearing both coordinates, timestamp ...01. -/
def opC1Enc : J :=
  J.obj [("oprnType", J.str "OFFLINE_LOC"),
         ("encLocation", J.obj [("latitude", J.num 5), ("longitude", J.num 6),
            ("horizontalUncertainty", J.num 3), ("verticalUncertainty", J.num 4),
            ("gpsUtcDt", J.str "20240101000001")])]

/-- Nested block with no coordinates at all and the freshest timestamp
...02. -/
def encBlockNC : J :=
  J.obj [("horizontalUncertainty", J.num 3), ("verticalUncertainty", J.num 4),
         ("gpsUtcDt", J.str "20240101000002")]

/-- Nested-case record with no coordinates and the freshest timestamp. -/
def opC1EncNoCoord : J :=
  J.obj [("oprnType", J.str "OFFLINE_LOC"), ("encLocation", encBlockNC)]

/-- Claim C1, counterexample: (1) two permutations of the same records
produce different `used_loc` (a fresher latitude-only record keeps the
older longitude in one order and leaves it unset in the other), so the
selection is not order-independent; (2) a coordinate-free nested record
with the freshest timestamp still stamps `gps_date`, so `gps_date` is
NOT the maximum timestamp among records from which a coordinate was
extracted (the only coordinate-bearing record has timestamp ...01, yet
`gps_date` is ...02). -/
theorem C1_counterexample :
    (∃ s1 s2 : ScanSt,
       scanOps [opC1A, opC1B] = .ok s1 ∧ scanOps [opC1B, opC1A] = .ok s2 ∧
       [opC1A, opC1B].Perm [opC1B, opC1A] ∧ s1.used_loc ≠ s2.used_loc) ∧
    (∃ s : ScanSt,
       scanOps [opC1Enc, opC1EncNoCoord] = .ok s ∧
       s.used_loc.gps_date = some 20240101000002 ∧
       opC1EncNoCoord.hasKey "latitude" = .ok false ∧
       opC1EncNoCoord.item "encLocation" = .ok encBlockNC ∧
       encBlockNC.hasKey "latitude" = .ok false ∧
       encBlockNC.hasKey "longitude" = .ok false ∧
       eligTsOpt opC1Enc = some 20240101000001) := by
  constructor
  · exact ⟨_, _, rfl, rfl, List.Perm.swap opC1B opC1A [], by decide⟩
  · exact ⟨_, rfl, by decide, by decide, by decide, by decide, by decide, by decide⟩

/-- Claim C2, counterexample: a plain record carrying only a latitude
(no longitude key anywhere, no nested block) sets
`location_found = true`, and a nested record from which BOTH
coordinates were extracted (they sit in `used_loc`) leaves
`location_found = false` — so the flag is not "some record yielded
both coordinates". -/
theorem C2_counterexample :
    (∃ s : ScanSt,
       scanOps [opC1B] = .ok s ∧ s.location_found = true ∧
       opC1B.hasKey "longitude" = .ok false ∧
       opC1B.item "encLocation" = .error .keyError) ∧
    (∃ s : ScanSt,
       scanOps [opC1Enc] = .ok s ∧ s.location_found = false ∧
       s.used_loc.latitude = some 5 ∧ s.used_loc.longitude = some 6) := by
  constructor
  · exact ⟨_, rfl, by decide, by decide, by decide⟩
  · exact ⟨_, rfl, by decide, by decide, by decide⟩

/-- The published location after scanning opC1A then opC1B: the fresher
latitude-only record wins but keeps the older longitude. -/
def ulC1W : UsedLoc :=
  { latitude := some 3, longitude := some 2, gps_accuracy := some 5,
    gps_date := some 20240101000001 }

/-- The full result for the C1 witness response. -/
def rC1W : LocResult :=
  { update_success := true, location_found := true, used_op := some opC1B,
    used_loc := some ulC1W, ops := [opC1A, opC1B] }

/-- Closed witness for the amended claim C1 at concrete inputs. -/
theorem C1_amended_witness :
    get_device_location
      ⟨200, "", J.obj [("operation", J.arr [opC1A, opC1B])]⟩ = .ok (some rC1W) ∧
    rC1W.used_loc = some ulC1W ∧ ulC1W.gps_date = maxTsP rC1W.ops ∧
    (∃ s1 s2 : ScanSt,
       scanOps [opC1A, opC1B] = .ok s1 ∧ scanOps [opC1B, opC1A] = .ok s2 ∧
       s1.used_loc.gps_date = s2.used_loc.gps_date) := by
  have h1 : get_device_location
      ⟨200, "", J.obj [("operation", J.arr [opC1A, opC1B])]⟩ = .ok (some rC1W) := by
    decide
  refine ⟨h1, rfl, C1_amended.1 _ _ _ h1 rfl, ?_⟩
  exact ⟨_, _, rfl, rfl,
    C1_amended.2 [opC1A, opC1B] [opC1B, opC1A] _ _ rfl rfl
      (List.Perm.swap opC1B opC1A [])⟩

/-- The full result for the C2 witness response. -/
def rC2W : LocResult :=
  { update_success := true, location_found := true, used_op := some opC1B,
    used_loc := some { latitude := some 3, longitude := none,
                       gps_accuracy := some 5, gps_date := some 20240101000001 },
    ops := [opC1B] }

/-- Closed witness for the amended claim C2 at a concrete input. -/
theorem C2_amended_witness :
    get_device_location
      ⟨200, "", J.obj [("operation", J.arr [opC1B])]⟩ = .ok (some rC2W) ∧
    rC2W.location_found = lfSpec none rC2W.ops := by
  have h1 : get_device_location
      ⟨200, "", J.obj [("operation", J.arr [opC1B])]⟩ = .ok (some rC2W) := by
    decide
  exact ⟨h1, C2_amended _ _ h1⟩

end STF
